import Mathlib

/-!
Shallow embedding of the pdf-rag server's ingestion and scoped-retrieval core.

The vector payloads, Qdrant filters, the GET /chat filter construction with its
legacy fallback, the ownership validation, the chunk-overlap enforcement loop,
the worker job handler's status machine, the upload limit check, the multer
file validation, and the DELETE /api/pdfs/:id vector deletion are translated
from `server/index.js` (current revision), `server/worker.js` and
`server/services/database.js`.  External services (Qdrant, Supabase, multer)
are modelled at their interface contract: a filtered similarity search returns
only records whose payload satisfies the filter, database queries are
ownership-scoped list operations, and multer dispatches the configured
`fileFilter` / `limits` before the route handler runs.
-/

namespace PdfRag

/-! ## Qdrant data model: payloads, filters, records -/

/-- A Qdrant match condition as built by the server: exact `value` match or
membership in an `any` list. -/
inductive MatchCond where
  | value (v : String)
  | anyOf (vs : List String)
deriving DecidableEq

/-- One `must` clause of a Qdrant filter: a payload key plus a match condition. -/
structure FilterClause where
  key : String
  cond : MatchCond
deriving DecidableEq

/-- A Qdrant filter as built by the server: a conjunction of `must` clauses. -/
structure QFilter where
  must : List FilterClause
deriving DecidableEq

/-- The payload stored with every vector record.  LangChain nests the chunk
metadata under the `metadata` key, hence the filterable fields are
`metadata.userId` and `metadata.pdfId`.  Both are `Option` because legacy
records written before per-document tagging may lack `pdfId`. -/
structure Payload where
  text : String
  userId : Option String
  pdfId : Option String
deriving DecidableEq

/-- Payload field lookup by Qdrant key path. -/
def payloadGet (p : Payload) (key : String) : Option String :=
  if key = "metadata.userId" then p.userId
  else if key = "metadata.pdfId" then p.pdfId
  else none

/-- Whether a stored string satisfies a match condition. -/
def MatchCond.holds : MatchCond → String → Bool
  | .value v, s => s == v
  | .anyOf vs, s => vs.contains s

/-- The list of concrete values a match condition accepts. -/
def MatchCond.values : MatchCond → List String
  | .value v => [v]
  | .anyOf vs => vs

/-- A clause is satisfied when the payload has the key and its value matches;
a missing key never matches. -/
def FilterClause.sat (c : FilterClause) (p : Payload) : Bool :=
  match payloadGet p c.key with
  | some s => c.cond.holds s
  | none => false

/-- A filter is satisfied when every `must` clause is. -/
def QFilter.sat (f : QFilter) (p : Payload) : Bool :=
  f.must.all (fun c => c.sat p)

/-- One point of the external vector index: a Qdrant point id plus payload.
The embedding vector itself plays no role in the filtering logic. -/
structure VectorRecord where
  pointId : Nat
  payload : Payload
deriving DecidableEq

/-- The external vector index's filtered similarity search contract
(`asRetriever({k, filter}).invoke(query)`): the store is listed in the index's
own relevance order for the query, and the search returns the `k` most
relevant records whose payload satisfies the filter. -/
def qdrantSearch (store : List VectorRecord) (k : Nat) (f : QFilter) : List VectorRecord :=
  (store.filter (fun r => f.sat r.payload)).take k

/-! ## GET /chat filter construction and fallback (server/index.js, current revision) -/

/-- The `metadata.userId` exact-match clause present in every chat filter. -/
def userIdClause (userId : String) : FilterClause :=
  ⟨"metadata.userId", .value userId⟩

/-- GET /chat filter construction: always the `userId` clause; when validated
pdf ids are present, one more clause — `value` for a single id, `any` for
several. -/
def chatFilter (userId : String) (validPDFIds : List String) : QFilter :=
  match validPDFIds with
  | [] => ⟨[userIdClause userId]⟩
  | [single] => ⟨[userIdClause userId, ⟨"metadata.pdfId", .value single⟩]⟩
  | many => ⟨[userIdClause userId, ⟨"metadata.pdfId", .anyOf many⟩]⟩

/-- GET /chat legacy fallback filter: the `userId` clause alone. -/
def legacyFilter (userId : String) : QFilter :=
  ⟨[userIdClause userId]⟩

/-- GET /chat retrieval: primary search with the full filter; if it returns
nothing and a pdf-id filter was applied, one retry with the userId-only
legacy filter. -/
def chatRetrieve (store : List VectorRecord) (userId : String)
    (validPDFIds : List String) : List VectorRecord :=
  let result := qdrantSearch store 5 (chatFilter userId validPDFIds)
  if result.isEmpty && !validPDFIds.isEmpty then
    qdrantSearch store 5 (legacyFilter userId)
  else result

/-- The sequence of filters GET /chat actually hands to the vector index,
in order: the primary filter, then the legacy filter exactly when the
fallback fires. -/
def chatSearchFilters (store : List VectorRecord) (userId : String)
    (validPDFIds : List String) : List QFilter :=
  let result := qdrantSearch store 5 (chatFilter userId validPDFIds)
  if result.isEmpty && !validPDFIds.isEmpty then
    [chatFilter userId validPDFIds, legacyFilter userId]
  else [chatFilter userId validPDFIds]

/-! ## Basic search lemmas -/

theorem mem_of_mem_qdrantSearch {store : List VectorRecord} {k : Nat} {f : QFilter}
    {r : VectorRecord} (h : r ∈ qdrantSearch store k f) :
    r ∈ store ∧ f.sat r.payload = true := by
  unfold qdrantSearch at h
  have h1 : r ∈ store.filter (fun r => f.sat r.payload) := List.mem_of_mem_take h
  exact ⟨(List.mem_filter.mp h1).1, (List.mem_filter.mp h1).2⟩

theorem userId_of_sat_userIdClause {u : String} {p : Payload}
    (h : (userIdClause u).sat p = true) : p.userId = some u := by
  cases hp : p.userId with
  | none =>
      unfold FilterClause.sat userIdClause payloadGet at h
      simp [hp] at h
  | some s =>
      unfold FilterClause.sat userIdClause payloadGet at h
      simp [hp, MatchCond.holds] at h
      rw [h]

theorem userIdClause_mem_chatFilter (u : String) (ids : List String) :
    userIdClause u ∈ (chatFilter u ids).must := by
  unfold chatFilter
  match ids with
  | [] => simp
  | [single] => simp
  | a :: b :: rest => simp

theorem userIdClause_mem_chatSearchFilters (store : List VectorRecord)
    (u : String) (ids : List String) :
    ∀ f ∈ chatSearchFilters store u ids, userIdClause u ∈ f.must := by
  intro f hf
  unfold chatSearchFilters at hf
  by_cases hc : ((qdrantSearch store 5 (chatFilter u ids)).isEmpty && !ids.isEmpty) = true
  · rw [if_pos hc] at hf
    simp only [List.mem_cons, List.mem_singleton] at hf
    rcases hf with h | h | h
    · rw [h]; exact userIdClause_mem_chatFilter u ids
    · rw [h]; unfold legacyFilter; simp
    · cases h
  · rw [if_neg hc] at hf
    simp only [List.mem_singleton] at hf
    rw [hf]; exact userIdClause_mem_chatFilter u ids

theorem chatRetrieve_userId (store : List VectorRecord) (u : String)
    (ids : List String) :
    ∀ r ∈ chatRetrieve store u ids, r.payload.userId = some u := by
  intro r hr
  unfold chatRetrieve at hr
  by_cases hc : ((qdrantSearch store 5 (chatFilter u ids)).isEmpty && !ids.isEmpty) = true
  · rw [if_pos hc] at hr
    have hsat := (mem_of_mem_qdrantSearch hr).2
    unfold QFilter.sat at hsat
    have hcl : (userIdClause u).sat r.payload = true := by
      have := List.all_eq_true.mp hsat (userIdClause u) (by unfold legacyFilter; simp)
      exact this
    exact userId_of_sat_userIdClause hcl
  · rw [if_neg hc] at hr
    have hsat := (mem_of_mem_qdrantSearch hr).2
    unfold QFilter.sat at hsat
    have hcl : (userIdClause u).sat r.payload = true :=
      List.all_eq_true.mp hsat (userIdClause u) (userIdClause_mem_chatFilter u ids)
    exact userId_of_sat_userIdClause hcl

/-! ## Claim C1 -/

/-- C1: both the primary and the legacy fallback search of GET /chat carry the
exact-match `metadata.userId` clause, so a retrieval authenticated as owner
`a` only returns records whose payload userId is `a`, and in particular never
a record tagged with a different owner `b` — for any store, query relevance
order and candidate list. -/
theorem chat_tenant_isolation (store : List VectorRecord) (a b : String)
    (validPDFIds : List String) (hab : a ≠ b) :
    (∀ f ∈ chatSearchFilters store a validPDFIds, userIdClause a ∈ f.must) ∧
    (∀ r ∈ chatRetrieve store a validPDFIds, r.payload.userId = some a) ∧
    (∀ r ∈ chatRetrieve store a validPDFIds, r.payload.userId ≠ some b) := by
  refine ⟨userIdClause_mem_chatSearchFilters store a validPDFIds,
          chatRetrieve_userId store a validPDFIds, ?_⟩
  intro r hr hb
  have ha := chatRetrieve_userId store a validPDFIds r hr
  rw [ha] at hb
  exact hab (Option.some.inj hb)

/-- Witness for C1 at a concrete two-tenant store: the record A's retrieval
returns is not tagged with owner B. -/
theorem chat_tenant_isolation_witness :
    (⟨1, ⟨"a text", some "ownerA", some "docA"⟩⟩ : VectorRecord).payload.userId
      ≠ some "ownerB" :=
  (chat_tenant_isolation
      [⟨0, ⟨"b text", some "ownerB", some "docB"⟩⟩,
       ⟨1, ⟨"a text", some "ownerA", some "docA"⟩⟩]
      "ownerA" "ownerB" ["docA"] (by decide)).2.2
    ⟨1, ⟨"a text", some "ownerA", some "docA"⟩⟩ (by decide)

/-! ## Claim C3 -/

/-- C3: the legacy retry fires exactly when a validated pdf-id filter was
applied and the primary search came back empty, in which case GET /chat
issues exactly the two searches — primary then legacy — where the legacy
filter keeps the userId clause and has no pdf-id clause; with no pdf-id
filter applied only the primary search is issued. -/
theorem chat_fallback_retry_policy (store : List VectorRecord) (u : String)
    (ids : List String) :
    (ids = [] → chatSearchFilters store u ids = [chatFilter u []]) ∧
    (ids ≠ [] → qdrantSearch store 5 (chatFilter u ids) = [] →
      chatSearchFilters store u ids = [chatFilter u ids, legacyFilter u]) ∧
    (ids ≠ [] → qdrantSearch store 5 (chatFilter u ids) ≠ [] →
      chatSearchFilters store u ids = [chatFilter u ids]) ∧
    (legacyFilter u).must = [userIdClause u] ∧
    (∀ c ∈ (legacyFilter u).must, c.key ≠ "metadata.pdfId") := by
  refine ⟨?_, ?_, ?_, rfl, ?_⟩
  · intro h
    subst h
    unfold chatSearchFilters
    simp
  · intro hne hempty
    unfold chatSearchFilters
    rw [hempty]
    have : (!ids.isEmpty) = true := by
      cases ids with
      | nil => exact absurd rfl hne
      | cons a l => rfl
    simp [this]
  · intro hne hnonempty
    unfold chatSearchFilters
    have : (qdrantSearch store 5 (chatFilter u ids)).isEmpty = false := by
      cases hq : qdrantSearch store 5 (chatFilter u ids) with
      | nil => exact absurd hq hnonempty
      | cons a l => rfl
    simp [this]
  · intro c hc
    unfold legacyFilter userIdClause at hc
    simp only [List.mem_singleton] at hc
    subst hc
    show ("metadata.userId" : String) ≠ "metadata.pdfId"
    decide

/-- Witness for C3: on an empty store with one candidate id the fallback fires
and exactly the two filters are issued. -/
theorem chat_fallback_retry_policy_witness :
    chatSearchFilters [] "ownerA" ["docA"] =
      [chatFilter "ownerA" ["docA"], legacyFilter "ownerA"] :=
  (chat_fallback_retry_policy [] "ownerA" ["docA"]).2.1 (by decide) rfl

/-! ## Metadata store (server/services/database.js over the Supabase `pdfs` table) -/

/-- One row of the `pdfs` table (the fields used by the core). -/
structure PDFRecord where
  dbId : String
  pdf_id : String
  user_id : String
  upload_status : String
  error_message : Option String
  page_count : Option Nat
  chunk_count : Option Nat
deriving DecidableEq

/-- `getUserPDFs`: all rows of the caller. -/
def getUserPDFs (db : List PDFRecord) (userId : String) : List PDFRecord :=
  db.filter (fun r => r.user_id == userId)

/-- `getUserPDFCount`: row count of the caller. -/
def getUserPDFCount (db : List PDFRecord) (userId : String) : Nat :=
  (db.filter (fun r => r.user_id == userId)).length

/-- The `select pdf_id where user_id = userId and pdf_id in pdfIds` query result. -/
def validPDFIdsOf (db : List PDFRecord) (userId : String) (pdfIds : List String) :
    List String :=
  (db.filter (fun r => r.user_id == userId && pdfIds.contains r.pdf_id)).map
    (fun r => r.pdf_id)

/-- `validatePDFOwnership`: first component is the owned subset of the
candidates; second component is the list of rejected ids logged as a possible
security probe (logged exactly when fewer rows matched than candidates were
supplied). -/
def validatePDFOwnership (db : List PDFRecord) (userId : String)
    (pdfIds : List String) : List String × List String :=
  if pdfIds.isEmpty then ([], [])
  else
    let valid := validPDFIdsOf db userId pdfIds
    let rejected :=
      if valid.length < pdfIds.length then pdfIds.filter (fun i => !valid.contains i)
      else []
    (valid, rejected)

/-! ## GET /chat handler outcomes -/

/-- The distinct responses of GET /chat after validation: a normal answer
(the completion call over the retrieved context) or one of the typed
400 errors, each corresponding to one distinct error string in the code. -/
inductive ChatOutcome where
  | answer (docs : List VectorRecord)
  | errNoValidPDFs
  | errStillProcessing
  | errNoCompletedPDFs
  | errNoDocsForSelected
  | errNoPDFsUploaded
  | errNoMatchingContent
deriving DecidableEq

/-- The empty-result branches of GET /chat: with a pdf-id filter, "No
documents found for the selected PDFs" (still processing); otherwise "You
don't have any PDFs uploaded yet" when the caller has no rows, else "No
matching content found". -/
def chatEmptyResultOutcome (db : List PDFRecord) (userId : String)
    (validPDFIds : List String) : ChatOutcome :=
  if !validPDFIds.isEmpty then .errNoDocsForSelected
  else if (getUserPDFs db userId).isEmpty then .errNoPDFsUploaded
  else .errNoMatchingContent

/-- Retrieval phase of GET /chat: search (with fallback), then either the
typed empty-result outcome or the answer built from the non-empty context. -/
def chatRetrievalPhase (db : List PDFRecord) (store : List VectorRecord)
    (userId : String) (validPDFIds : List String) : ChatOutcome :=
  if (chatRetrieve store userId validPDFIds).isEmpty then
    chatEmptyResultOutcome db userId validPDFIds
  else .answer (chatRetrieve store userId validPDFIds)

/-- GET /chat after the userId/message checks: ownership validation and the
processed-status pre-checks, then the retrieval phase. -/
def chatHandler (db : List PDFRecord) (store : List VectorRecord)
    (userId : String) (pdfIds : List String) : ChatOutcome :=
  if pdfIds.isEmpty then
    if ((getUserPDFs db userId).filter
        (fun p => p.upload_status == "completed")).isEmpty then .errNoCompletedPDFs
    else chatRetrievalPhase db store userId []
  else
    if (validatePDFOwnership db userId pdfIds).1.isEmpty then .errNoValidPDFs
    else
      if !(((getUserPDFs db userId).filter
            (fun p => (validatePDFOwnership db userId pdfIds).1.contains p.pdf_id)).filter
            (fun p => p.upload_status != "completed")).isEmpty then .errStillProcessing
      else chatRetrievalPhase db store userId (validatePDFOwnership db userId pdfIds).1

/-! ## Validation and handler lemmas -/

theorem isEmpty_false_of_ne_nil {α : Type} {l : List α} (h : l ≠ []) :
    l.isEmpty = false := by
  cases l with
  | nil => exact absurd rfl h
  | cons a t => rfl

theorem mem_validPDFIdsOf {db : List PDFRecord} {u : String} {pdfIds : List String}
    {i : String} (h : i ∈ validPDFIdsOf db u pdfIds) :
    i ∈ pdfIds ∧ ∃ r ∈ db, r.user_id = u ∧ r.pdf_id = i := by
  unfold validPDFIdsOf at h
  rcases List.mem_map.mp h with ⟨r, hr, hri⟩
  rcases List.mem_filter.mp hr with ⟨hrdb, hcond⟩
  simp only [Bool.and_eq_true, beq_iff_eq] at hcond
  refine ⟨?_, r, hrdb, hcond.1, hri⟩
  rw [← hri]
  simpa using hcond.2

theorem validPDFIdsOf_nodup {db : List PDFRecord} {u : String} {pdfIds : List String}
    (hnodup : ((getUserPDFs db u).map (fun r => r.pdf_id)).Nodup) :
    (validPDFIdsOf db u pdfIds).Nodup := by
  unfold validPDFIdsOf
  unfold getUserPDFs at hnodup
  have heq : db.filter (fun r => r.user_id == u && pdfIds.contains r.pdf_id)
      = (db.filter (fun r => r.user_id == u)).filter
          (fun r => pdfIds.contains r.pdf_id) := by
    rw [List.filter_filter]
    exact List.filter_congr (fun a _ => Bool.and_comm _ _)
  rw [heq]
  refine List.Nodup.sublist (List.Sublist.map (fun r : PDFRecord => r.pdf_id) ?_) hnodup
  exact List.filter_sublist _

theorem chatFilter_pdfId_values (u : String) (ids : List String) :
    ∀ c ∈ (chatFilter u ids).must, c.key = "metadata.pdfId" →
      ∀ v ∈ c.cond.values, v ∈ ids := by
  intro c hc hk v hv
  cases ids with
  | nil =>
      unfold chatFilter at hc
      simp only [List.mem_singleton] at hc
      subst hc
      have hk2 : ("metadata.userId" : String) = "metadata.pdfId" := hk
      exact absurd hk2 (by decide)
  | cons a tl =>
      cases tl with
      | nil =>
          unfold chatFilter at hc
          rcases List.mem_pair.mp hc with h | h
          · subst h
            have hk2 : ("metadata.userId" : String) = "metadata.pdfId" := hk
            exact absurd hk2 (by decide)
          · subst h
            simpa [MatchCond.values] using hv
      | cons b tl2 =>
          unfold chatFilter at hc
          rcases List.mem_pair.mp hc with h | h
          · subst h
            have hk2 : ("metadata.userId" : String) = "metadata.pdfId" := hk
            exact absurd hk2 (by decide)
          · subst h
            simpa [MatchCond.values] using hv

theorem chatSearchFilters_pdfId_values (store : List VectorRecord) (u : String)
    (ids : List String) :
    ∀ f ∈ chatSearchFilters store u ids, ∀ c ∈ f.must,
      c.key = "metadata.pdfId" → ∀ v ∈ c.cond.values, v ∈ ids := by
  intro f hf
  unfold chatSearchFilters at hf
  by_cases hcond : ((qdrantSearch store 5 (chatFilter u ids)).isEmpty
      && !ids.isEmpty) = true
  · rw [if_pos hcond] at hf
    rcases List.mem_pair.mp hf with h | h
    · subst h; exact chatFilter_pdfId_values u ids
    · subst h
      intro c hc hk
      unfold legacyFilter at hc
      simp only [List.mem_singleton] at hc
      subst hc
      have hk2 : ("metadata.userId" : String) = "metadata.pdfId" := hk
      exact absurd hk2 (by decide)
  · rw [if_neg hcond] at hf
    simp only [List.mem_singleton] at hf
    subst hf
    exact chatFilter_pdfId_values u ids

theorem chatRetrievalPhase_ne_preCheckErrors (db : List PDFRecord)
    (store : List VectorRecord) (u : String) (ids : List String) :
    chatRetrievalPhase db store u ids ≠ ChatOutcome.errNoValidPDFs ∧
    chatRetrievalPhase db store u ids ≠ ChatOutcome.errStillProcessing ∧
    chatRetrievalPhase db store u ids ≠ ChatOutcome.errNoCompletedPDFs := by
  refine ⟨?_, ?_, ?_⟩ <;>
  · unfold chatRetrievalPhase chatEmptyResultOutcome
    split
    · split
      · simp
      · split <;> simp
    · simp

theorem validatePDFOwnership_fst {db : List PDFRecord} {u : String}
    {pdfIds : List String} (h : pdfIds ≠ []) :
    (validatePDFOwnership db u pdfIds).1 = validPDFIdsOf db u pdfIds := by
  unfold validatePDFOwnership
  simp [isEmpty_false_of_ne_nil h]

theorem chatRetrievalPhase_answer {db : List PDFRecord} {store : List VectorRecord}
    {u : String} {ids : List String} {docs : List VectorRecord}
    (h : chatRetrievalPhase db store u ids = ChatOutcome.answer docs) :
    docs ≠ [] := by
  unfold chatRetrievalPhase at h
  by_cases hc : (chatRetrieve store u ids).isEmpty = true
  · rw [if_pos hc] at h
    unfold chatEmptyResultOutcome at h
    split at h
    · exact ChatOutcome.noConfusion h
    · split at h
      · exact ChatOutcome.noConfusion h
      · exact ChatOutcome.noConfusion h
  · rw [if_neg hc] at h
    intro hd
    apply hc
    rw [ChatOutcome.answer.inj h, hd]
    rfl

/-! ## Claim C4 -/

/-- C4: for a non-empty candidate list, (1) every validated id is actually
owned by the caller; (2) assuming the schema's per-user uniqueness of
`pdf_id`, every unowned candidate ends up in the rejected-ids security log;
(3) when some candidate survives, the handler proceeds without an error
(the drop is silent); (4) when no candidate survives, the request fails with
the "No valid PDFs selected" client error instead of searching the whole
corpus; and (5) every pdf-id filter clause the handler sends to the vector
index mentions only validated ids. -/
theorem ownership_validation_policy (db : List PDFRecord) (store : List VectorRecord)
    (u : String) (pdfIds : List String)
    (hnodup : ((getUserPDFs db u).map (fun r => r.pdf_id)).Nodup) :
    (∀ i ∈ (validatePDFOwnership db u pdfIds).1,
        ∃ r ∈ db, r.user_id = u ∧ r.pdf_id = i) ∧
    (∀ i ∈ pdfIds, (∀ r ∈ db, r.user_id = u → r.pdf_id ≠ i) →
        i ∈ (validatePDFOwnership db u pdfIds).2) ∧
    (pdfIds ≠ [] → (validatePDFOwnership db u pdfIds).1 ≠ [] →
        chatHandler db store u pdfIds ≠ ChatOutcome.errNoValidPDFs) ∧
    (pdfIds ≠ [] → (validatePDFOwnership db u pdfIds).1 = [] →
        chatHandler db store u pdfIds = ChatOutcome.errNoValidPDFs) ∧
    (∀ f ∈ chatSearchFilters store u (validatePDFOwnership db u pdfIds).1,
        ∀ c ∈ f.must, c.key = "metadata.pdfId" →
          ∀ v ∈ c.cond.values, v ∈ (validatePDFOwnership db u pdfIds).1) := by
  refine ⟨?_, ?_, ?_, ?_, chatSearchFilters_pdfId_values store u _⟩
  · intro i hi
    by_cases hne : pdfIds = []
    · subst hne
      simp [validatePDFOwnership] at hi
    · rw [validatePDFOwnership_fst hne] at hi
      exact (mem_validPDFIdsOf hi).2
  · intro i hi hunowned
    have hne : pdfIds ≠ [] := List.ne_nil_of_mem hi
    have hnotin : i ∉ validPDFIdsOf db u pdfIds := by
      intro hmem
      rcases (mem_validPDFIdsOf hmem).2 with ⟨r, hrdb, hru, hri⟩
      exact hunowned r hrdb hru hri
    have hvsub : validPDFIdsOf db u pdfIds ⊆ pdfIds.erase i := by
      intro x hx
      have hxids := (mem_validPDFIdsOf hx).1
      have hxi : x ≠ i := by
        intro hxe
        exact hnotin (hxe ▸ hx)
      exact (List.mem_erase_of_ne hxi).mpr hxids
    have hlen : (validPDFIdsOf db u pdfIds).length < pdfIds.length := by
      have h1 := ((validPDFIdsOf_nodup hnodup).subperm hvsub).length_le
      have h2 : (pdfIds.erase i).length = pdfIds.length - 1 :=
        List.length_erase_of_mem hi
      have h3 : 0 < pdfIds.length := List.length_pos_of_mem hi
      omega
    have hsnd : (validatePDFOwnership db u pdfIds).2
        = pdfIds.filter (fun j => !(validPDFIdsOf db u pdfIds).contains j) := by
      unfold validatePDFOwnership
      simp [isEmpty_false_of_ne_nil hne, hlen]
    rw [hsnd]
    refine List.mem_filter.mpr ⟨hi, ?_⟩
    simp [hnotin]
  · intro hne hvalid
    unfold chatHandler
    simp only [isEmpty_false_of_ne_nil hne, isEmpty_false_of_ne_nil hvalid,
      Bool.false_eq_true, if_false]
    split
    · simp
    · exact (chatRetrievalPhase_ne_preCheckErrors db store u _).1
  · intro hne hvalid
    unfold chatHandler
    simp [isEmpty_false_of_ne_nil hne, hvalid]

/-- Witness for C4: one owned record, candidates mixing an owned and an
unowned id — the unowned id is dropped into the rejected-ids log. -/
theorem ownership_validation_policy_witness :
    "docX" ∈ (validatePDFOwnership
        [⟨"id1", "doc1", "ownerA", "completed", none, none, none⟩]
        "ownerA" ["doc1", "docX"]).2 :=
  (ownership_validation_policy
      [⟨"id1", "doc1", "ownerA", "completed", none, none, none⟩] []
      "ownerA" ["doc1", "docX"] (by decide)).2.1 "docX" (by decide) (by decide)

/-! ## Claim C7 -/

/-- C7: GET /chat never hands an empty context to the completion call — an
answer outcome always carries non-empty docs — and an empty retrieval (even
after the fallback) produces one of three pairwise-distinct typed errors:
selected documents still processing, no documents uploaded at all, or query
matching nothing. -/
theorem chat_empty_result_typed (db : List PDFRecord) (store : List VectorRecord)
    (u : String) (pdfIds : List String) :
    (∀ docs, chatHandler db store u pdfIds = ChatOutcome.answer docs → docs ≠ []) ∧
    (∀ valid, valid ≠ [] → chatRetrieve store u valid = [] →
      chatRetrievalPhase db store u valid = ChatOutcome.errNoDocsForSelected) ∧
    (chatRetrieve store u [] = [] → getUserPDFs db u = [] →
      chatRetrievalPhase db store u [] = ChatOutcome.errNoPDFsUploaded) ∧
    (chatRetrieve store u [] = [] → getUserPDFs db u ≠ [] →
      chatRetrievalPhase db store u [] = ChatOutcome.errNoMatchingContent) ∧
    (∀ docs, ChatOutcome.answer docs ≠ ChatOutcome.errNoDocsForSelected ∧
      ChatOutcome.answer docs ≠ ChatOutcome.errNoPDFsUploaded ∧
      ChatOutcome.answer docs ≠ ChatOutcome.errNoMatchingContent) ∧
    [ChatOutcome.errNoDocsForSelected, ChatOutcome.errNoPDFsUploaded,
      ChatOutcome.errNoMatchingContent].Nodup := by
  refine ⟨?_, ?_, ?_, ?_, ?_, by decide⟩
  · intro docs h
    unfold chatHandler at h
    split at h
    · split at h
      · exact ChatOutcome.noConfusion h
      · exact chatRetrievalPhase_answer h
    · split at h
      · exact ChatOutcome.noConfusion h
      · split at h
        · exact ChatOutcome.noConfusion h
        · exact chatRetrievalPhase_answer h
  · intro valid hv hr
    unfold chatRetrievalPhase
    rw [hr]
    simp [chatEmptyResultOutcome, isEmpty_false_of_ne_nil hv]
  · intro hr hdb
    unfold chatRetrievalPhase
    rw [hr]
    simp [chatEmptyResultOutcome, hdb]
  · intro hr hdb
    unfold chatRetrievalPhase
    rw [hr]
    simp [chatEmptyResultOutcome, isEmpty_false_of_ne_nil hdb]
  · intro docs
    exact ⟨by simp, by simp, by simp⟩

/-- Witness for C7: empty store and a selected document — the outcome is the
typed "no documents for the selected PDFs" error. -/
theorem chat_empty_result_typed_witness :
    chatRetrievalPhase [] [] "ownerA" ["docA"] = ChatOutcome.errNoDocsForSelected :=
  (chat_empty_result_typed [] [] "ownerA" ["docA"]).2.1 ["docA"] (by decide) rfl

/-! ## Chunking engine (server/worker.js lines 142-200) -/

/-- `chunkSize: 1000` of the splitter configuration. -/
def targetChunkSize : Nat := 1000

/-- `overlapSize = 200` of the manual overlap enforcement. -/
def overlapSize : Nat := 200

/-- Last-resort split on raw character boundaries into `n`-character pieces. -/
def hardSplit (n : Nat) (s : String) : List String :=
  (List.range ((s.length + n - 1) / n)).map (fun i => (s.drop (i * n)).take n)

/-- Modelled from the spec: the recursive character splitting is performed by
the external text-splitter library, which is not part of this repository.
This follows spec section 4.1 step 1 — split on the highest-level separator
first, recurse with the next separator only into pieces still larger than the
target size, fall back to raw character boundaries, and keep a text already
within the target as a single piece. -/
def splitRecursive (chunkSize : Nat) : List String → String → List String
  | [], text => hardSplit chunkSize text
  | sep :: rest, text =>
      if text.length ≤ chunkSize then [text]
      else (text.splitOn sep).flatMap (fun piece =>
        if chunkSize < piece.length then splitRecursive chunkSize rest piece
        else [piece])

/-- Modelled from the spec: empty input text yields the empty chunk sequence;
otherwise the recursive split runs with the separators configured in
worker.js line 145. -/
def splitText (chunkSize : Nat) (text : String) : List String :=
  if text = "" then []
  else splitRecursive chunkSize ["\n\n", "\n", ". ", " "] text

/-- JS `s.slice(-n)` for `n > 0`: the last `n` characters of `s` (all of `s`
when `s` is shorter than `n`). -/
def sliceLast (s : String) (n : Nat) : String :=
  s.drop (s.length - n)

/-- Overlap enforcement for one chunk against its pre-overlap predecessor
(worker.js 166-180): prepend the last 200 characters of the previous chunk
unless the current chunk's first 50 characters already equal the overlap
text's last 50 characters. -/
def enforceOverlap (previousChunk currentChunk : String) : String :=
  let overlapText := sliceLast previousChunk overlapSize
  let first50Chars := currentChunk.take 50
  let overlapLast50 := sliceLast overlapText 50
  if first50Chars == overlapLast50 then currentChunk
  else overlapText ++ currentChunk

/-- One chunk document as pushed onto `chunksWithOverlap` (worker.js 182-197),
with the metadata fields attached there. -/
structure ChunkDoc where
  pageContent : String
  userId : String
  pdfId : String
  chunkIndex : Nat
  totalChunks : Nat
  chunkSize : Nat
  hasOverlap : Bool
deriving DecidableEq, Inhabited

/-- The final text of chunk `i`: the first chunk is unchanged, each later
chunk gets the overlap from its pre-overlap predecessor. -/
def overlappedTextAt (texts : List String) (i : Nat) : String :=
  if i = 0 then texts.getD 0 ""
  else enforceOverlap (texts.getD (i - 1) "") (texts.getD i "")

/-- The overlap-enforcement loop (worker.js 158-200): builds the final chunk
list, with metadata, from the pre-overlap split `texts`. -/
def buildChunksWithOverlap (userId pdfId : String) (texts : List String) :
    List ChunkDoc :=
  (List.range texts.length).map (fun i =>
    ⟨overlappedTextAt texts i, userId, pdfId, i, texts.length,
     (overlappedTextAt texts i).length, decide (0 < i)⟩)

/-- The chunking pipeline of a job: recursive split, then overlap enforcement
with metadata. -/
def chunkingPipeline (userId pdfId text : String) : List ChunkDoc :=
  buildChunksWithOverlap userId pdfId (splitText targetChunkSize text)

/-! ## String lemmas for the overlap claim -/

theorem sliceLast_data (s : String) (n : Nat) :
    sliceLast s n = ⟨s.data.drop (s.data.length - n)⟩ := by
  unfold sliceLast
  rw [String.drop_eq]
  rfl

theorem sliceLast_sliceLast (s : String) {m n : Nat} (h : n ≤ m) :
    sliceLast (sliceLast s m) n = sliceLast s n := by
  rw [sliceLast_data s m, sliceLast_data, sliceLast_data s n]
  congr 1
  show List.drop ((s.data.drop (s.data.length - m)).length - n)
      (s.data.drop (s.data.length - m)) = List.drop (s.data.length - n) s.data
  rw [List.drop_drop, List.length_drop]
  congr 1
  omega

/-! ## Claim C5 -/

/-- C5: with overlapSize 200, the final text of chunk `i > 0` is the last 200
characters of the pre-overlap chunk `i-1` prepended to the pre-overlap chunk
`i`, unless the first 50 characters of chunk `i` equal the last 50 characters
of chunk `i-1`, in which case chunk `i` is unchanged; chunk 0 never receives
a prepended overlap. -/
theorem overlap_enforcement_correct (u p : String) (texts : List String)
    (i : Nat) (hi : i < texts.length) :
    ((buildChunksWithOverlap u p texts).getD i default).pageContent =
      (if i = 0 then texts.getD 0 ""
       else if (texts.getD i "").take 50 = sliceLast (texts.getD (i - 1) "") 50
         then texts.getD i ""
         else sliceLast (texts.getD (i - 1) "") 200 ++ texts.getD i "") := by
  have hmem : (buildChunksWithOverlap u p texts).getD i default
      = ⟨overlappedTextAt texts i, u, p, i, texts.length,
         (overlappedTextAt texts i).length, decide (0 < i)⟩ := by
    unfold buildChunksWithOverlap
    have hlen : i < ((List.range texts.length).map (fun i =>
        (⟨overlappedTextAt texts i, u, p, i, texts.length,
          (overlappedTextAt texts i).length, decide (0 < i)⟩ : ChunkDoc))).length := by
      simpa using hi
    rw [List.getD_eq_getElem _ _ hlen, List.getElem_map, List.getElem_range]
  rw [hmem]
  show overlappedTextAt texts i = _
  unfold overlappedTextAt enforceOverlap
  by_cases h0 : i = 0
  · simp [h0]
  · have h50 : sliceLast (sliceLast (texts.getD (i - 1) "") overlapSize) 50
        = sliceLast (texts.getD (i - 1) "") 50 :=
      sliceLast_sliceLast _ (by decide)
    simp only [h0, if_false, h50, beq_iff_eq]
    rfl

set_option maxRecDepth 8192 in
/-- Witness for C5 at a concrete split: the second chunk receives the whole
(short) first chunk as prepended overlap. -/
theorem overlap_enforcement_correct_witness :
    ((buildChunksWithOverlap "ownerA" "docA" ["abcdef", "xyz"]).getD 1
        default).pageContent = "abcdefxyz" := by
  have h := overlap_enforcement_correct "ownerA" "docA" ["abcdef", "xyz"] 1
    (by decide)
  rw [h]
  decide

/-! ## Claim C8 -/

/-- C8: a non-empty text shorter than the 1000-character target produces
exactly one chunk — index 0, total 1, no overlap, text unchanged — and the
empty text produces the empty chunk sequence. -/
theorem single_chunk_edge_case (u p text : String) (hne : text ≠ "")
    (hlen : text.length < targetChunkSize) :
    chunkingPipeline u p text = [⟨text, u, p, 0, 1, text.length, false⟩] ∧
    chunkingPipeline u p "" = [] := by
  constructor
  · have hsplit : splitText targetChunkSize text = [text] := by
      unfold splitText splitRecursive
      simp [hne, Nat.le_of_lt hlen]
    unfold chunkingPipeline
    rw [hsplit]
    unfold buildChunksWithOverlap
    have h1 : List.range ([text].length) = [0] := rfl
    rw [h1]
    simp [overlappedTextAt]
  · rfl

/-- Witness for C8 at a concrete short text. -/
theorem single_chunk_edge_case_witness :
    chunkingPipeline "ownerA" "docA" "hello world" =
      [⟨"hello world", "ownerA", "docA", 0, 1, 11, false⟩] :=
  (single_chunk_edge_case "ownerA" "docA" "hello world" (by decide) (by decide)).1

/-! ## Worker job handler (server/worker.js lines 38-521) -/

/-- The job payload fields the status machine uses. -/
structure JobData where
  userId : String
  pdfId : String
  databaseId : String
deriving DecidableEq

/-- Result of one JS phase: normal completion or a thrown error message. -/
inductive JsResult (α : Type) where
  | ok (a : α)
  | thrown (msg : String)
deriving DecidableEq

/-- `updatePDFStatus` (database.js 122-144): update the fields of the rows
matching both the database id and the user id; absent optional fields keep
their stored value. -/
def updatePDFStatus (db : List PDFRecord) (dbId userId : String)
    (status : String) (err : Option String) (pages chunkCount : Option Nat) :
    List PDFRecord :=
  db.map (fun r =>
    if r.dbId == dbId && r.user_id == userId then
      ⟨r.dbId, r.pdf_id, r.user_id, status,
       match err with | some m => some m | none => r.error_message,
       match pages with | some k => some k | none => r.page_count,
       match chunkCount with | some k => some k | none => r.chunk_count⟩
    else r)

/-- The outcomes of the externally-performed phases of one job run: the
'processing' status write, the blob fetch, the PDF parse (text and page
count), the embedding/vector write, and the 'completed' status write. -/
structure WorkerRun where
  statusProcessingWrite : JsResult Unit
  fetch : JsResult Unit
  parse : JsResult (String × Nat)
  vectorWrite : JsResult Unit
  statusCompletedWrite : JsResult Unit
deriving DecidableEq

/-- The `catch` block of the worker job handler (worker.js 498-521).  The
block reads `data.databaseId`, but `data` is a `const` declared inside the
`try` block (worker.js 43-44) and is not in scope in the `catch`; evaluating
it raises a ReferenceError, so neither the write of status 'failed' with
`error_message` nor the re-throw of the original error is ever reached. -/
def workerCatch (db : List PDFRecord) : List PDFRecord × JsResult Unit :=
  (db, .thrown "ReferenceError: data is not defined")

/-- The worker job handler: set 'processing' (failures of that write are
caught locally and processing continues), fetch, parse, chunk, embed and
write vectors, then set 'completed' with page and chunk counts (failures of
that write are caught locally); any phase throw lands in the catch block. -/
def workerHandler (db : List PDFRecord) (job : JobData) (run : WorkerRun) :
    List PDFRecord × JsResult Unit :=
  let db1 :=
    if job.databaseId != "" && job.userId != "" then
      match run.statusProcessingWrite with
      | .ok _ => updatePDFStatus db job.databaseId job.userId "processing"
          none none none
      | .thrown _ => db
    else db
  match run.fetch with
  | .thrown _ => workerCatch db1
  | .ok _ =>
    match run.parse with
    | .thrown _ => workerCatch db1
    | .ok (text, pages) =>
      match run.vectorWrite with
      | .thrown _ => workerCatch db1
      | .ok _ =>
        let db2 :=
          if job.databaseId != "" && job.userId != "" then
            match run.statusCompletedWrite with
            | .ok _ => updatePDFStatus db1 job.databaseId job.userId "completed"
                none (some pages)
                (some (chunkingPipeline job.userId job.pdfId text).length)
            | .thrown _ => db1
          else db1
        (db2, .ok ())

/-! ## Claim C2 -/

/-- C2 (code bug): a job whose PDF parse throws after the record was set to
'processing' leaves the record at status 'processing' with no errorDetail,
and the handler raises a ReferenceError — the catch block references the
out-of-scope `data`, so the promised 'failed' write never executes. -/
theorem worker_failure_leaves_processing :
    workerHandler
        [⟨"db1", "pdf1", "ownerA", "pending", none, none, none⟩]
        ⟨"ownerA", "pdf1", "db1"⟩
        ⟨.ok (), .ok (), .thrown "Invalid PDF structure", .ok (), .ok ()⟩
      = ([⟨"db1", "pdf1", "ownerA", "processing", none, none, none⟩],
         .thrown "ReferenceError: data is not defined") := by
  rfl

/-! ## POST /upload/pdf (server/index.js 230-384, current revision) -/

/-- The request file as multer presents it. -/
structure UploadedFile where
  mimetype : String
  size : Nat
  originalname : String
deriving DecidableEq

/-- Observable server-side state an upload can touch: metadata rows, stored
blob handles, queued jobs. -/
structure ServerState where
  db : List PDFRecord
  blobs : List String
  jobs : List JobData
deriving DecidableEq

/-- Outcomes of the upload route handler body. -/
inductive UploadOutcome where
  | ok
  | errLimitReached
  | errNoFile
deriving DecidableEq

/-- HTTP status of each upload-handler outcome. -/
def uploadStatusCode : UploadOutcome → Nat
  | .ok => 200
  | .errLimitReached => 400
  | .errNoFile => 400

/-- The POST /upload/pdf route handler after auth: the limit check (max 3
PDFs per user) runs before the Cloudinary upload, the record creation and
the job enqueue.  The fresh ids and the blob handle are parameters because
they come from uuid generation and Cloudinary. -/
def uploadHandler (st : ServerState) (userId : String)
    (file : Option UploadedFile) (newDbId newPdfId blobHandle : String) :
    ServerState × UploadOutcome :=
  if 3 ≤ getUserPDFCount st.db userId then (st, .errLimitReached)
  else
    match file with
    | none => (st, .errNoFile)
    | some _ =>
        (⟨st.db ++ [⟨newDbId, newPdfId, userId, "pending", none, none, none⟩],
          st.blobs ++ [blobHandle],
          st.jobs ++ [⟨userId, newPdfId, newDbId⟩]⟩, .ok)

/-- Result of the multer middleware for the request's file, per multer's
documented contract: the configured fileFilter rejects a non-PDF mimetype by
passing a plain Error (not a MulterError) to its callback, and the
`fileSize` limit aborts with MulterError LIMIT_FILE_SIZE. -/
inductive MulterResult where
  | accepted (f : UploadedFile)
  | fileFilterError (msg : String)
  | limitFileSize
deriving DecidableEq

/-- multer dispatch for POST /upload/pdf, with `fileFilter` and
`limits.fileSize = 10 * 1024 * 1024` from server/index.js 230-246: the
mimetype check runs when the file arrives, the size limit during streaming. -/
def multerProcess (f : UploadedFile) : MulterResult :=
  if f.mimetype == "application/pdf" then
    if f.size ≤ 10 * 1024 * 1024 then .accepted f
    else .limitFileSize
  else .fileFilterError "Only PDF files are allowed"

/-- An HTTP response: status code plus error message, if any. -/
structure HttpResponse where
  status : Nat
  errorMsg : Option String
deriving DecidableEq

/-- The response the handler body's outcome maps to. -/
def uploadResponse : UploadOutcome → HttpResponse
  | .ok => ⟨200, none⟩
  | .errLimitReached => ⟨400, some "Upload limit reached. Maximum 3 PDFs per user. Please delete a PDF to upload a new one."⟩
  | .errNoFile => ⟨400, some "No file uploaded"⟩

/-- The full POST /upload/pdf pipeline: multer middleware first; a multer
error skips the route handler and lands in the global error-handler
middleware (server/index.js 826-840), which answers 400 for MulterError
LIMIT_FILE_SIZE but 500 "Internal server error" for any other error — the
plain fileFilter Error included; an accepted file reaches the handler. -/
def uploadRoute (st : ServerState) (userId : String) (f : UploadedFile)
    (newDbId newPdfId blobHandle : String) : ServerState × HttpResponse :=
  match multerProcess f with
  | .limitFileSize => (st, ⟨400, some "File too large. Maximum size is 10MB"⟩)
  | .fileFilterError _ => (st, ⟨500, some "Internal server error"⟩)
  | .accepted file =>
      ((uploadHandler st userId (some file) newDbId newPdfId blobHandle).1,
       uploadResponse (uploadHandler st userId (some file) newDbId newPdfId
         blobHandle).2)

/-! ## Claim C9 -/

/-- C9: a caller already owning 3 or more PDF records has the upload rejected
with the 400 limit error before any blob upload, record creation or job
enqueue — the server state is unchanged. -/
theorem upload_limit_enforced (st : ServerState) (u : String)
    (file : Option UploadedFile) (d p b : String)
    (h : 3 ≤ getUserPDFCount st.db u) :
    uploadHandler st u file d p b = (st, .errLimitReached) ∧
    uploadStatusCode .errLimitReached = 400 := by
  refine ⟨?_, rfl⟩
  unfold uploadHandler
  rw [if_pos h]

/-- Witness for C9: a fourth upload for a user with 3 records changes
nothing and yields the limit error. -/
theorem upload_limit_enforced_witness :
    uploadHandler
        ⟨[⟨"d1", "p1", "ownerA", "completed", none, none, none⟩,
          ⟨"d2", "p2", "ownerA", "completed", none, none, none⟩,
          ⟨"d3", "p3", "ownerA", "failed", some "bad pdf", none, none⟩], [], []⟩
        "ownerA" (some ⟨"application/pdf", 100, "a.pdf"⟩) "d4" "p4" "b4"
      = (⟨[⟨"d1", "p1", "ownerA", "completed", none, none, none⟩,
           ⟨"d2", "p2", "ownerA", "completed", none, none, none⟩,
           ⟨"d3", "p3", "ownerA", "failed", some "bad pdf", none, none⟩], [], []⟩,
         .errLimitReached) :=
  (upload_limit_enforced
      ⟨[⟨"d1", "p1", "ownerA", "completed", none, none, none⟩,
        ⟨"d2", "p2", "ownerA", "completed", none, none, none⟩,
        ⟨"d3", "p3", "ownerA", "failed", some "bad pdf", none, none⟩], [], []⟩
      "ownerA" (some ⟨"application/pdf", 100, "a.pdf"⟩) "d4" "p4" "b4"
      (by decide)).1

/-! ## Claim C10 -/

/-- C10 counterexample: a text/plain upload is rejected through the global
error handler with HTTP 500 — a server error, not a client (4xx) error as
the claim states. -/
theorem upload_mimetype_counterexample :
    (uploadRoute ⟨[], [], []⟩ "ownerA" ⟨"text/plain", 100, "a.txt"⟩
        "d1" "p1" "b1").2.status = 500 ∧
    ¬(400 ≤ (uploadRoute ⟨[], [], []⟩ "ownerA" ⟨"text/plain", 100, "a.txt"⟩
        "d1" "p1" "b1").2.status ∧
      (uploadRoute ⟨[], [], []⟩ "ownerA" ⟨"text/plain", 100, "a.txt"⟩
        "d1" "p1" "b1").2.status < 500) := by
  decide

/-- C10 amended: a non-PDF mimetype or an oversized (> 10 MiB) file is
rejected with no blob upload, no record and no job — the oversized file with
the 400 client error, but the wrong-mimetype rejection surfaces as HTTP 500,
because the fileFilter error is not a MulterError and falls through to the
generic 500 branch of the global error handler. -/
theorem upload_validation_amended (st : ServerState) (u : String)
    (f : UploadedFile) (d p b : String) :
    (f.mimetype ≠ "application/pdf" →
      uploadRoute st u f d p b = (st, ⟨500, some "Internal server error"⟩)) ∧
    (f.mimetype = "application/pdf" → 10 * 1024 * 1024 < f.size →
      uploadRoute st u f d p b =
        (st, ⟨400, some "File too large. Maximum size is 10MB"⟩)) := by
  constructor
  · intro h
    unfold uploadRoute multerProcess
    have hb : (f.mimetype == "application/pdf") = false := by simp [h]
    simp [hb]
  · intro hm hs
    unfold uploadRoute multerProcess
    have h1 : (f.mimetype == "application/pdf") = true := by simp [hm]
    have h2 : ¬ (f.size ≤ 10 * 1024 * 1024) := by omega
    simp [h1, h2]

/-- Witness for C10 (amended) at a file one byte over the limit. -/
theorem upload_validation_amended_witness :
    uploadRoute ⟨[], [], []⟩ "ownerA" ⟨"application/pdf", 10485761, "big.pdf"⟩
        "d1" "p1" "b1"
      = (⟨[], [], []⟩, ⟨400, some "File too large. Maximum size is 10MB"⟩) :=
  (upload_validation_amended ⟨[], [], []⟩ "ownerA"
      ⟨"application/pdf", 10485761, "big.pdf"⟩ "d1" "p1" "b1").2 rfl (by decide)

/-! ## DELETE /api/pdfs/:id vector deletion (server/index.js 727-791) -/

/-- The deletion filter: both the caller's userId and the document's pdfId. -/
def deleteFilter (userId pdfId : String) : QFilter :=
  ⟨[⟨"metadata.userId", .value userId⟩, ⟨"metadata.pdfId", .value pdfId⟩]⟩

/-- Qdrant scroll: the matching points, capped at `limit`. -/
def qdrantScroll (store : List VectorRecord) (f : QFilter) (limit : Nat) :
    List VectorRecord :=
  (store.filter (fun r => f.sat r.payload)).take limit

/-- Qdrant delete-by-point-ids. -/
def qdrantDeletePoints (store : List VectorRecord) (ids : List Nat) :
    List VectorRecord :=
  store.filter (fun r => !ids.contains r.pointId)

/-- The delete endpoint's Qdrant step: scroll for the matching point ids with
`limit: 10000`, then delete exactly those points (skipped when none match). -/
def deletePDFVectors (store : List VectorRecord) (userId pdfId : String) :
    List VectorRecord :=
  if (qdrantScroll store (deleteFilter userId pdfId) 10000).isEmpty then store
  else qdrantDeletePoints store
    ((qdrantScroll store (deleteFilter userId pdfId) 10000).map (fun r => r.pointId))

/-! ## Claim C6 -/

/-- The payload shared by the 10001 matching records of the counterexample. -/
def c6payload : Payload := ⟨"t", some "ownerA", some "docD"⟩

/-- A store holding 10001 records that all match owner ownerA, document docD. -/
def c6store : List VectorRecord :=
  (List.range 10001).map (fun i => ⟨i, c6payload⟩)

/-- C6 counterexample: with 10001 matching vectors, the scroll cap
(`limit: 10000`) leaves one vector that matches both the caller's userId and
the deleted document's pdfId undeleted, so the removed records are not
exactly the matching ones. -/
theorem delete_exactness_counterexample :
    (⟨10000, c6payload⟩ : VectorRecord) ∈ deletePDFVectors c6store "ownerA" "docD" ∧
    (deleteFilter "ownerA" "docD").sat c6payload = true := by
  refine ⟨?_, by decide⟩
  have hmem : (⟨10000, c6payload⟩ : VectorRecord) ∈ c6store := by
    unfold c6store
    exact List.mem_map.mpr ⟨10000, List.mem_range.mpr (by omega), rfl⟩
  unfold deletePDFVectors
  by_cases hE : (qdrantScroll c6store (deleteFilter "ownerA" "docD") 10000).isEmpty = true
  · rw [if_pos hE]
    exact hmem
  · rw [if_neg hE]
    unfold qdrantDeletePoints
    refine List.mem_filter.mpr ⟨hmem, ?_⟩
    have hfil : c6store.filter
        (fun x => (deleteFilter "ownerA" "docD").sat x.payload) = c6store := by
      apply List.filter_eq_self.mpr
      intro a ha
      rcases List.mem_map.mp ha with ⟨j, hj, hja⟩
      rw [← hja]
      show (deleteFilter "ownerA" "docD").sat c6payload = true
      decide
    have htake : c6store.take 10000
        = (List.range 10000).map (fun i => (⟨i, c6payload⟩ : VectorRecord)) := by
      unfold c6store
      rw [← List.map_take, List.take_range]
      norm_num
    have hnotin : (10000 : Nat) ∉
        (qdrantScroll c6store (deleteFilter "ownerA" "docD") 10000).map
          (fun r => r.pointId) := by
      intro hin
      rcases List.mem_map.mp hin with ⟨r, hr, hrid⟩
      have hrtake : r ∈ c6store.take 10000 := by
        unfold qdrantScroll at hr
        rw [hfil] at hr
        exact hr
      rw [htake] at hrtake
      rcases List.mem_map.mp hrtake with ⟨j, hj, hjr⟩
      have hidj : r.pointId = j := by rw [← hjr]
      have hjlt : j < 10000 := List.mem_range.mp hj
      omega
    simp [hnotin]

/-- C6 amended: every record the deletion removes matches both the caller's
userId and the deleted document's pdfId — any record of another tenant or
another document is retained and nothing new appears — and whenever at most
10000 records match (the scroll cap), the removed set is exactly the
matching set.  Qdrant point ids are assumed unique in the store. -/
theorem delete_scoped_amended (store : List VectorRecord) (u d : String)
    (hid : (store.map (fun r => r.pointId)).Nodup) :
    (∀ r ∈ store, (deleteFilter u d).sat r.payload = false →
      r ∈ deletePDFVectors store u d) ∧
    (∀ r ∈ store, r ∉ deletePDFVectors store u d →
      (deleteFilter u d).sat r.payload = true) ∧
    (∀ r ∈ deletePDFVectors store u d, r ∈ store) ∧
    ((store.filter (fun r => (deleteFilter u d).sat r.payload)).length ≤ 10000 →
      ∀ r ∈ store, (deleteFilter u d).sat r.payload = true →
        r ∉ deletePDFVectors store u d) := by
  have hpts : ∀ m ∈ qdrantScroll store (deleteFilter u d) 10000,
      m ∈ store ∧ (deleteFilter u d).sat m.payload = true := by
    intro m hm
    unfold qdrantScroll at hm
    have h1 := List.mem_of_mem_take hm
    exact ⟨(List.mem_filter.mp h1).1, (List.mem_filter.mp h1).2⟩
  have hkeep : ∀ r ∈ store, (deleteFilter u d).sat r.payload = false →
      r ∈ deletePDFVectors store u d := by
    intro r hr hsat
    unfold deletePDFVectors
    by_cases hE : (qdrantScroll store (deleteFilter u d) 10000).isEmpty = true
    · rw [if_pos hE]
      exact hr
    · rw [if_neg hE]
      unfold qdrantDeletePoints
      refine List.mem_filter.mpr ⟨hr, ?_⟩
      have hnot : r.pointId ∉ (qdrantScroll store (deleteFilter u d) 10000).map
          (fun x => x.pointId) := by
        intro hin
        rcases List.mem_map.mp hin with ⟨m, hm, hmid⟩
        rcases hpts m hm with ⟨hmstore, hmsat⟩
        have hmr : m = r := List.inj_on_of_nodup_map hid hmstore hr hmid
        rw [hmr] at hmsat
        rw [hsat] at hmsat
        exact Bool.noConfusion hmsat
      simp [hnot]
  refine ⟨hkeep, ?_, ?_, ?_⟩
  · intro r hr hnr
    by_cases hsat : (deleteFilter u d).sat r.payload = true
    · exact hsat
    · exact absurd (hkeep r hr (by simpa using hsat)) hnr
  · intro r hr
    unfold deletePDFVectors at hr
    by_cases hE : (qdrantScroll store (deleteFilter u d) 10000).isEmpty = true
    · rw [if_pos hE] at hr
      exact hr
    · rw [if_neg hE] at hr
      exact (List.mem_filter.mp hr).1
  · intro hlen r hr hsat
    have hrm : r ∈ store.filter (fun x => (deleteFilter u d).sat x.payload) :=
      List.mem_filter.mpr ⟨hr, hsat⟩
    have htake : qdrantScroll store (deleteFilter u d) 10000
        = store.filter (fun x => (deleteFilter u d).sat x.payload) := by
      unfold qdrantScroll
      exact List.take_of_length_le hlen
    intro hmem
    unfold deletePDFVectors at hmem
    by_cases hE : (qdrantScroll store (deleteFilter u d) 10000).isEmpty = true
    · rw [htake] at hE
      have hnil : store.filter (fun x => (deleteFilter u d).sat x.payload) = [] := by
        simpa using hE
      rw [hnil] at hrm
      cases hrm
    · rw [if_neg hE] at hmem
      unfold qdrantDeletePoints at hmem
      have h2 := (List.mem_filter.mp hmem).2
      have hin : r.pointId ∈ (qdrantScroll store (deleteFilter u d) 10000).map
          (fun x => x.pointId) := by
        rw [htake]
        exact List.mem_map.mpr ⟨r, hrm, rfl⟩
      simp [hin] at h2

/-- Witness for C6 (amended): another tenant's record survives the deletion. -/
theorem delete_scoped_amended_witness :
    (⟨1, ⟨"other", some "ownerB", some "docB"⟩⟩ : VectorRecord) ∈
      deletePDFVectors
        [⟨0, ⟨"t", some "ownerA", some "docD"⟩⟩,
         ⟨1, ⟨"other", some "ownerB", some "docB"⟩⟩]
        "ownerA" "docD" :=
  (delete_scoped_amended
      [⟨0, ⟨"t", some "ownerA", some "docD"⟩⟩,
       ⟨1, ⟨"other", some "ownerB", some "docB"⟩⟩]
      "ownerA" "docD" (by decide)).1
    ⟨1, ⟨"other", some "ownerB", some "docB"⟩⟩ (by decide) (by decide)

end PdfRag
